import Mathlib

/-!
Shallow embedding of the Modbus master engine: the frame codec
(CRC16/Modbus, request building, expected message length), the RTU
receive path of the RTU transport with its deadline-polling read loop,
the delivery callback of the UDP transport with its staging queue, the fire-and-forget
control path, and the derived register operations.

Bytes are modelled as `Nat` values, with side conditions `< 256` stated
where the C++ type `uint8_t` guarantees them. The C operators `&`, `|`,
`^`, `<<`, `>>` are modelled as the corresponding `Nat` bitwise
operators. Thrown C++ exceptions are modelled as `Except.error` carrying
the exception message; the silent discard on the UDP delivery callback
(return -1) is modelled as `Option.none`.
-/

set_option maxRecDepth 10000

namespace Modbus

/-- One inner round of the CRC16/Modbus loop of
`SsModbusMaster::calculate_crc` (modbus_master.cpp, identical copies in
both transport implementations): if the LSB of the running value is set,
shift right and xor the polynomial 0xA001, else just shift right. -/
def crc_round (c : Nat) : Nat :=
  if c &&& 1 = 1 then (c >>> 1) ^^^ 0xA001 else c >>> 1

/-- One byte of the CRC16 loop: xor the byte into the running value,
then run the 8 shift-xor rounds. -/
def crc_update (c b : Nat) : Nat := crc_round^[8] (c ^^^ b)

/-- Embedding of `SsModbusMaster::calculate_crc`: initial value 0xFFFF, then the
per-byte update folded over the data. -/
def calculate_crc (data : List Nat) : Nat := data.foldl crc_update 0xFFFF

/-- Embedding of `SsModbusMaster::verify_crc`: reject when fewer than 2 bytes, else
compare the CRC over all but the trailing two bytes against the trailing
two bytes reassembled as `(data[length-1] << 8) | data[length-2]`. -/
def verify_crc (data : List Nat) : Bool :=
  if data.length < 2 then false
  else
    calculate_crc (data.take (data.length - 2)) ==
      ((data.getD (data.length - 1) 0) <<< 8 ||| data.getD (data.length - 2) 0)

/-- Embedding of `ModbusRtuMaster::Impl::verify_crc` (modbus_rtu_master.cpp): the same
comparison but with no length guard; its throw on mismatch is modelled
by the caller treating `false` as the thrown "CRC check failed". -/
def impl_verify_crc (data : List Nat) : Bool :=
  calculate_crc (data.take (data.length - 2)) ==
    ((data.getD (data.length - 1) 0) <<< 8 ||| data.getD (data.length - 2) 0)

/-- The CRC-appending tail of `SsModbusMaster::build_request_frame`:
push `crc & 0xFF`, then `(crc >> 8) & 0xFF`. -/
def append_crc (payload : List Nat) : List Nat :=
  payload ++ [calculate_crc payload &&& 0xFF, (calculate_crc payload >>> 8) &&& 0xFF]

/-- Flip bit `j` of byte `i` of a frame: the single-bit corruption used
to state the checksum robustness property. -/
def flip_bit (frame : List Nat) (i j : Nat) : List Nat :=
  frame.set i (frame.getD i 0 ^^^ (1 <<< j))

/-- Embedding of `modbus::ModbusResponse` (modbus_types.h). The enum-typed fields are
kept as raw byte values; `error` 0 is `NO_ERROR`. The C++ struct gives
`error` no default member initializer, so a default-initialised response
carries an indeterminate `error` value; embeddings of the receive paths
take that initial value as an explicit `error_init` argument. -/
structure ModbusResponse where
  slave_address : Nat
  function_code : Nat
  data : List Nat
  error : Nat
deriving DecidableEq, Repr

/-- Embedding of `modbus::ModbusRequest` (modbus_types.h); the function code is the
raw byte value: 3 = READ_HOLDING_REGISTERS, 4 = READ_INPUT_REGISTERS,
6 = WRITE_SINGLE_REGISTER, 16 = WRITE_MULTIPLE_REGISTERS. -/
structure ModbusRequest where
  slave_address : Nat
  function_code : Nat
  start_address : Nat
  register_count : Nat
  values : List Nat
deriving DecidableEq, Repr

/-- Embedding of `append_uint16`: push a 16-bit value big-endian,
`(value >> 8) & 0xFF` then `value & 0xFF`. -/
def append_uint16 (value : Nat) : List Nat :=
  [(value >>> 8) &&& 0xFF, value &&& 0xFF]

/-- Embedding of `SsModbusMaster::build_request_frame` (textually identical in
`ModbusRtuMaster::Impl` and `ModbusUdpMaster::Impl`): address byte,
function-code byte, per-code payload, then the CRC appended low byte
first; any other function code throws "Unsupported function code"
before any frame is produced. For code 6 the source indexes
`request.values[0]`, which its callers only reach with a nonempty
vector; the embedding uses the defaulted lookup. -/
def build_request_frame (request : ModbusRequest) : Except String (List Nat) :=
  let base := [request.slave_address, request.function_code]
  if request.function_code = 3 ∨ request.function_code = 4 then
    .ok (append_crc (base ++ append_uint16 request.start_address ++
      append_uint16 request.register_count))
  else if request.function_code = 6 then
    .ok (append_crc (base ++ append_uint16 request.start_address ++
      append_uint16 (request.values.getD 0 0)))
  else if request.function_code = 16 then
    .ok (append_crc (base ++ append_uint16 request.start_address ++
      append_uint16 request.register_count ++
      [(request.values.length * 2) &&& 0xFF] ++
      (request.values.map append_uint16).flatten))
  else .error "Unsupported function code"

/-- Embedding of `SsModbusMaster::get_actual_message_length`: switch on the
function-code byte `data[1]`; 0x03 gives `3 + data[2] + 2`, 0x06 and
0x10 give 8, everything else falls to the default and gives 0. -/
def get_actual_message_length (data : List Nat) : Nat :=
  if data.getD 1 0 = 3 then 3 + data.getD 2 0 + 2
  else if data.getD 1 0 = 6 ∨ data.getD 1 0 = 16 then 8
  else 0

/-- The decode loop of `SsModbusMaster::read_holding_registers`:
`value = (data[i] << 8) | data[i+1]` for i = 0, 2, 4, ... -/
def decode_registers : List Nat → List Nat
  | a :: b :: rest => ((a <<< 8) ||| b) :: decode_registers rest
  | _ => []

/-- Embedding of `SsModbusMaster::read_holding_registers` after its `send_request`
call, whose result is supplied as `response`: throw on a response error,
throw "Invalid response data size" unless
`data.size == register_count * 2`, else decode big-endian u16 pairs in
ascending register order. -/
def read_holding_registers (register_count : Nat) (response : ModbusResponse) :
    Except String (List Nat) :=
  if response.error ≠ 0 then .error "Modbus error"
  else if response.data.length ≠ register_count * 2 then
    .error "Invalid response data size"
  else .ok (decode_registers response.data)

/-- Embedding of `SsModbusMaster::write_multiple_registers` up to its `send_request`
call: the request handed to the transport. The source performs no
argument validation before sending. -/
def master_write_multiple_registers (slave_address start_address : Nat)
    (values : List Nat) : Except String ModbusRequest :=
  .ok { slave_address := slave_address, function_code := 16,
        start_address := start_address, register_count := values.length,
        values := values }

/-- Embedding of `SsDeviceAdapter::write_multiple_registers` (device_adapter.cpp) up
to its `send_request` call: `values.empty() || values.size() > 123`
throws `std::invalid_argument` before the request is built. -/
def adapter_write_multiple_registers (slave_address start_address : Nat)
    (values : List Nat) : Except String ModbusRequest :=
  if values.isEmpty ∨ 123 < values.length then .error "Values count must be 1-123"
  else .ok { slave_address := slave_address, function_code := 16,
             start_address := start_address, register_count := values.length,
             values := values }

/-- Embedding of `ModbusUdpMaster::Impl::handleResponse` (modbus_udp_master.cpp) up to
the staging step: `none` models every silent-discard return (-1).
`error_init` is the indeterminate initial value of the
default-initialised `response.error` member, which the non-exception
branches never assign. -/
def handleResponse (error_init : Nat) (rawData : List Nat) : Option ModbusResponse :=
  let size := rawData.length
  if size < 4 then none
  else
    let f := rawData.getD 1 0
    if f &&& 0x80 ≠ 0 then
      if size ≠ 5 then none
      else if verify_crc rawData then
        some { slave_address := rawData.getD 0 0, function_code := f,
               data := [], error := rawData.getD 2 0 }
      else none
    else if f = 3 ∨ f = 4 then
      if size < 5 ∨ rawData.getD 2 0 = 0 ∨ size ≠ 5 + rawData.getD 2 0 then none
      else if verify_crc rawData then
        some { slave_address := rawData.getD 0 0, function_code := f,
               data := (rawData.drop 2).take (size - 4), error := error_init }
      else none
    else if f = 6 ∨ f = 16 then
      if size ≠ 8 then none
      else if verify_crc rawData then
        some { slave_address := rawData.getD 0 0, function_code := f,
               data := [], error := error_init }
      else none
    else none

/-- The staging step at the end of `handleResponse`: under the lock, if
10 or more responses are queued, pop the oldest, then push the new one.
The head of the list is the front of the queue. -/
def stage_response (queue : List ModbusResponse) (response : ModbusResponse) :
    List ModbusResponse :=
  (if 10 ≤ queue.length then queue.tail else queue) ++ [response]

/-- Embedding of `ModbusUdpMaster::Impl::Status` (modbus_udp_master.cpp): the running
counters touched by the control path. -/
structure CommunicationStatus where
  total_queries : Nat
  failed_queries : Nat
  total_controls : Nat
  failed_controls : Nat
deriving DecidableEq, Repr

/-- Embedding of `ModbusUdpMaster::Impl::control_async`: build the frame (an
unsupported function code throws out of the build and escapes to the
caller), count the control, and count a failure when the bus send
fails; `send_ok` models the success predicate of `SendGeneralMessage`. -/
def control_async (send_ok : List Nat → Bool) (request : ModbusRequest)
    (status : CommunicationStatus) : Except String CommunicationStatus :=
  match build_request_frame request with
  | .error e => .error e
  | .ok frame =>
    let counted := { status with total_controls := status.total_controls + 1 }
    if send_ok frame then .ok counted
    else .ok { counted with failed_controls := counted.failed_controls + 1 }

/-- Embedding of `ModbusUdpMaster::Impl::control_batch`: `control_async` on each
request in order; an exception escaping one call aborts the loop. -/
def control_batch (send_ok : List Nat → Bool) :
    List ModbusRequest → CommunicationStatus → Except String CommunicationStatus
  | [], status => .ok status
  | r :: rs, status =>
    match control_async send_ok r status with
    | .error e => .error e
    | .ok st2 => control_batch send_ok rs st2

/-- Result of one `ModbusRtuMaster::Impl::read_with_timeout` call:
success carries the new consumed position and clock, timeout failure the
clock at failure; `noFuel` is the artefact of the fuelled recursion and
is never reached with enough fuel. -/
inductive ReadResult where
  | ok (pos t : Nat)
  | timedOut (t : Nat)
  | noFuel
deriving DecidableEq, Repr

/-- Embedding of `ModbusRtuMaster::Impl::read_with_timeout`: repeatedly read the
serial port; a nonempty read extends the buffer, an empty read compares
the clock against the deadline fixed at `start` (strictly, as in
`now - start > timeout`) and otherwise sleeps 10 ms. Time is in
milliseconds; `sched t` is the total number of bytes the port has made
available by time `t`, `pos` the bytes consumed so far, `want` the bytes
still needed, and a read returns the available unconsumed bytes capped
at `want`, taking no time. -/
def read_with_timeout (sched : Nat → Nat) (timeout start : Nat) :
    Nat → Nat → Nat → Nat → ReadResult
  | pos, want, t, 0 => if want = 0 then .ok pos t else .noFuel
  | pos, want, t, fuel + 1 =>
    if want = 0 then .ok pos t
    else
      if min (sched t - pos) want ≠ 0 then
        read_with_timeout sched timeout start (pos + min (sched t - pos) want)
          (want - min (sched t - pos) want) t fuel
      else if timeout < t - start then .timedOut t
      else read_with_timeout sched timeout start pos want (t + 10) fuel

/-- Embedding of `ModbusRtuMaster::Impl::receive_response`: `bytes` is the wire
content in arrival order and `sched` its arrival schedule; successive
reads consume successive positions of `bytes`. Each phase calls
`read_with_timeout` with the same `timeout` argument and a deadline
fixed at the entry clock of that same phase, as in the source. On success the
result carries the response and the clock at completion. `error_init`
models the indeterminate initial value of the `response.error` member,
assigned only on the exception branch. -/
def receive_response (error_init : Nat) (sched : Nat → Nat) (bytes : List Nat)
    (timeout t0 fuel : Nat) : Except String (ModbusResponse × Nat) :=
  match read_with_timeout sched timeout t0 0 2 t0 fuel with
  | .noFuel => .error "out of fuel"
  | .timedOut _ => .error "Response timeout"
  | .ok pos1 t1 =>
    let s := bytes.getD 0 0
    let f := bytes.getD 1 0
    if f &&& 0x80 ≠ 0 then
      match read_with_timeout sched timeout t1 pos1 1 t1 fuel with
      | .noFuel => .error "out of fuel"
      | .timedOut _ => .error "Incomplete exception response"
      | .ok _ t2 =>
        .ok ({ slave_address := s, function_code := f, data := [],
               error := bytes.getD 2 0 }, t2)
    else if f = 3 ∨ f = 4 then
      match read_with_timeout sched timeout t1 pos1 1 t1 fuel with
      | .noFuel => .error "out of fuel"
      | .timedOut _ => .error "Incomplete read response"
      | .ok pos2 t2 =>
        let byte_count := bytes.getD 2 0
        match read_with_timeout sched timeout t2 pos2 (byte_count + 2) t2 fuel with
        | .noFuel => .error "out of fuel"
        | .timedOut _ => .error "Incomplete read data"
        | .ok _ t3 =>
          if impl_verify_crc ((bytes.drop 2).take (byte_count + 3)) then
            .ok ({ slave_address := s, function_code := f,
                   data := (bytes.drop 3).take byte_count,
                   error := error_init }, t3)
          else .error "CRC check failed"
    else if f = 6 ∨ f = 16 then
      match read_with_timeout sched timeout t1 pos1 6 t1 fuel with
      | .noFuel => .error "out of fuel"
      | .timedOut _ => .error "Incomplete write response"
      | .ok _ t2 =>
        if impl_verify_crc ((bytes.drop 2).take 6) then
          .ok ({ slave_address := s, function_code := f, data := [],
                 error := error_init }, t2)
        else .error "CRC check failed"
    else .error "Unsupported function code in response"

/-- A message-bus send that always succeeds: the concrete `send_ok`
oracle used to evaluate the control path on concrete inputs. -/
def send_always_ok : List Nat → Bool := fun _ => true

/-- An arrival schedule with `n` bytes available from time 0 on. -/
def sched_all (n : Nat) : Nat → Nat := fun _ => n

/-- An arrival schedule that never delivers a byte. -/
def sched_none : Nat → Nat := fun _ => 0

/-- A slow arrival schedule: the 2 header bytes become available at
105 ms and the remaining 6 bytes at 215 ms, so each receive phase
completes just inside its own deadline. -/
def sched_slow : Nat → Nat := fun t =>
  if t < 105 then 0 else if t < 215 then 2 else 8

/-! ## CRC16 theory -/

theorem shiftRight_one_xor (x y : Nat) :
    (x ^^^ y) >>> 1 = x >>> 1 ^^^ y >>> 1 := by
  apply Nat.eq_of_testBit_eq
  intro i
  simp [Nat.testBit_shiftRight, Nat.testBit_xor]

theorem xor_mod_two (x y : Nat) : (x ^^^ y) % 2 = (x % 2 + y % 2) % 2 := by
  have h := Nat.testBit_xor x y 0
  simp only [Nat.testBit_zero] at h
  rcases Nat.mod_two_eq_zero_or_one x with hx | hx <;>
    rcases Nat.mod_two_eq_zero_or_one y with hy | hy <;>
      rcases Nat.mod_two_eq_zero_or_one (x ^^^ y) with hxy | hxy <;>
        simp [hx, hy, hxy] at h ⊢

theorem crc_round_linear (x y : Nat) :
    crc_round (x ^^^ y) = crc_round x ^^^ crc_round y := by
  have hsr := shiftRight_one_xor x y
  have hm := xor_mod_two x y
  simp only [crc_round, Nat.and_one_is_mod]
  rcases Nat.mod_two_eq_zero_or_one x with hx | hx <;>
    rcases Nat.mod_two_eq_zero_or_one y with hy | hy
  · have hm0 : (x ^^^ y) % 2 = 0 := by rw [hm, hx, hy]
    rw [if_neg (by omega), if_neg (by omega), if_neg (by omega), hsr]
  · have hm1 : (x ^^^ y) % 2 = 1 := by rw [hm, hx, hy]
    rw [if_pos hm1, if_neg (by omega), if_pos hy, hsr, Nat.xor_assoc]
  · have hm1 : (x ^^^ y) % 2 = 1 := by rw [hm, hx, hy]
    rw [if_pos hm1, if_pos hx, if_neg (by omega), hsr, Nat.xor_assoc,
      Nat.xor_assoc, Nat.xor_comm (y >>> 1) 0xA001]
  · have hm0 : (x ^^^ y) % 2 = 0 := by rw [hm, hx, hy]
    rw [if_neg (by omega), if_pos hx, if_pos hy, hsr, Nat.xor_assoc,
      Nat.xor_comm (y >>> 1) 0xA001, Nat.xor_cancel_left]

theorem crc_rounds_linear (n x y : Nat) :
    crc_round^[n] (x ^^^ y) = crc_round^[n] x ^^^ crc_round^[n] y := by
  induction n with
  | zero => simp
  | succ n ih => simp [Function.iterate_succ_apply', ih, crc_round_linear]

theorem crc_round_lt {c : Nat} (h : c < 65536) : crc_round c < 65536 := by
  have h1 : c >>> 1 < 65536 := by
    have := Nat.shiftRight_eq_div_pow c 1
    omega
  unfold crc_round
  split
  · exact Nat.xor_lt_two_pow (n := 16) h1 (by norm_num)
  · exact h1

theorem testBit_ge16_false {c : Nat} (h : c < 65536) {i : Nat} (hi : 16 ≤ i) :
    c.testBit i = false :=
  Nat.testBit_eq_false_of_lt (lt_of_lt_of_le h
    (le_trans (by norm_num : (65536 : Nat) ≤ 2 ^ 16)
      (Nat.pow_le_pow_right (by norm_num) hi)))

theorem testBit_ge8_false {c : Nat} (h : c < 256) {i : Nat} (hi : 8 ≤ i) :
    c.testBit i = false :=
  Nat.testBit_eq_false_of_lt (lt_of_lt_of_le h
    (le_trans (by norm_num : (256 : Nat) ≤ 2 ^ 8)
      (Nat.pow_le_pow_right (by norm_num) hi)))

theorem crc_round_parity {c : Nat} (h : c < 65536) :
    (crc_round c).testBit 15 = decide (c &&& 1 = 1) := by
  have hsr : (c >>> 1).testBit 15 = false := by
    rw [Nat.testBit_shiftRight]
    exact testBit_ge16_false h (by norm_num)
  have hA : Nat.testBit 40961 15 = true := by decide
  unfold crc_round
  by_cases hc : c &&& 1 = 1
  · rw [if_pos hc]
    simp [Nat.testBit_xor, hsr, hA, hc]
  · rw [if_neg hc]
    rw [hsr, decide_eq_false hc]

theorem crc_round_inj {a b : Nat} (ha : a < 65536) (hb : b < 65536)
    (h : crc_round a = crc_round b) : a = b := by
  have hp := crc_round_parity ha
  have hq := crc_round_parity hb
  rw [h, hq] at hp
  have hA := Nat.and_one_is_mod a
  have hB := Nat.and_one_is_mod b
  have hda : a >>> 1 = a / 2 := by rw [Nat.shiftRight_eq_div_pow]
  have hdb : b >>> 1 = b / 2 := by rw [Nat.shiftRight_eq_div_pow]
  unfold crc_round at h
  rcases Nat.mod_two_eq_zero_or_one a with hma | hma <;>
    rcases Nat.mod_two_eq_zero_or_one b with hmb | hmb
  · rw [if_neg (by omega), if_neg (by omega)] at h
    rw [hda, hdb] at h
    omega
  · exfalso
    rw [hA, hB, hma, hmb] at hp
    simp at hp
  · exfalso
    rw [hA, hB, hma, hmb] at hp
    simp at hp
  · rw [if_pos (by omega), if_pos (by omega)] at h
    have h2 : a >>> 1 = b >>> 1 := by
      have h3 := congrArg (fun z => z ^^^ 0xA001) h
      simpa [Nat.xor_assoc] using h3
    rw [hda, hdb] at h2
    omega

theorem crc_round_zero : crc_round 0 = 0 := by decide

theorem crc_round_ne_zero {c : Nat} (h : c < 65536) (h0 : c ≠ 0) :
    crc_round c ≠ 0 := by
  intro hz
  exact h0 (crc_round_inj h (by norm_num) (by rw [hz, crc_round_zero]))

theorem crc_rounds_ne_zero (n : Nat) {e : Nat} (hlt : e < 65536) (h0 : e ≠ 0) :
    crc_round^[n] e ≠ 0 ∧ crc_round^[n] e < 65536 := by
  induction n with
  | zero => simpa using ⟨h0, hlt⟩
  | succ n ih =>
    rw [Function.iterate_succ_apply']
    exact ⟨crc_round_ne_zero ih.2 ih.1, crc_round_lt ih.2⟩

theorem crc_update_xor_state (c d b : Nat) :
    crc_update (c ^^^ d) b = crc_update c b ^^^ crc_round^[8] d := by
  unfold crc_update
  rw [show c ^^^ d ^^^ b = c ^^^ b ^^^ d by
    rw [Nat.xor_assoc, Nat.xor_comm d b, ← Nat.xor_assoc], crc_rounds_linear]

theorem crc_update_xor_byte (c b e : Nat) :
    crc_update c (b ^^^ e) = crc_update c b ^^^ crc_round^[8] e := by
  unfold crc_update
  rw [← Nat.xor_assoc, crc_rounds_linear]

theorem foldl_update_xor (l : List Nat) (s d : Nat) :
    l.foldl crc_update (s ^^^ d) =
      l.foldl crc_update s ^^^ crc_round^[8 * l.length] d := by
  induction l generalizing s d with
  | nil => simp
  | cons a l ih =>
    simp only [List.foldl_cons, List.length_cons]
    rw [crc_update_xor_state, ih]
    have h8 : 8 * (l.length + 1) = 8 * l.length + 8 := by ring
    rw [h8, Function.iterate_add_apply]

theorem foldl_update_set (l : List Nat) (i : Nat) (h : i < l.length) (e s : Nat) :
    (l.set i (l.getD i 0 ^^^ e)).foldl crc_update s =
      l.foldl crc_update s ^^^ crc_round^[8 * (l.length - i)] e := by
  induction l generalizing i s with
  | nil => simp at h
  | cons a l ih =>
    cases i with
    | zero =>
      simp only [List.getD_cons_zero, List.set_cons_zero, List.foldl_cons,
        List.length_cons, Nat.sub_zero]
      rw [crc_update_xor_byte, foldl_update_xor]
      have h8 : 8 * (l.length + 1) = 8 * l.length + 8 := by ring
      rw [h8, Function.iterate_add_apply]
    | succ i =>
      simp only [List.getD_cons_succ, List.set_cons_succ, List.foldl_cons,
        List.length_cons]
      have hi : i < l.length := by simpa using h
      rw [ih i hi]
      have h8 : l.length + 1 - (i + 1) = l.length - i := by omega
      rw [h8]

theorem crc_update_lt {c b : Nat} (hc : c < 65536) (hb : b < 65536) :
    crc_update c b < 65536 := by
  have h0 : c ^^^ b < 65536 := Nat.xor_lt_two_pow (n := 16) hc hb
  unfold crc_update
  clear hc hb
  induction 8 with
  | zero => simpa using h0
  | succ n ih => rw [Function.iterate_succ_apply']; exact crc_round_lt ih

theorem foldl_update_lt (l : List Nat) (hb : ∀ b ∈ l, b < 65536) {s : Nat}
    (hs : s < 65536) : l.foldl crc_update s < 65536 := by
  induction l generalizing s with
  | nil => simpa using hs
  | cons a l ih =>
    simp only [List.foldl_cons]
    exact ih (fun b h => hb b (List.mem_cons_of_mem _ h))
      (crc_update_lt hs (hb a (List.mem_cons_self a l)))

theorem calculate_crc_lt (data : List Nat) (hb : ∀ b ∈ data, b < 65536) :
    calculate_crc data < 65536 :=
  foldl_update_lt data hb (by norm_num)

theorem testBit_255 (i : Nat) : (255 : Nat).testBit i = decide (i < 8) := by
  have h : (255 : Nat) = 2 ^ 8 - 1 := by norm_num
  rw [h, Nat.testBit_two_pow_sub_one]

theorem lo_hi_reassemble {c : Nat} (h : c < 65536) :
    ((c >>> 8) &&& 255) <<< 8 ||| (c &&& 255) = c := by
  apply Nat.eq_of_testBit_eq
  intro i
  simp only [Nat.testBit_or, Nat.testBit_shiftLeft, Nat.testBit_and,
    testBit_255, Nat.testBit_shiftRight, ge_iff_le]
  by_cases h8 : i < 8
  · have hle : ¬(8 ≤ i) := by omega
    simp [hle, h8]
  · by_cases h16 : i < 16
    · have hle : 8 ≤ i := by omega
      have hsum : 8 + (i - 8) = i := by omega
      have hi8 : i - 8 < 8 := by omega
      simp [hle, hsum, hi8, h8]
    · have hle : 8 ≤ i := by omega
      have hc : c.testBit i = false := testBit_ge16_false h (by omega)
      have hi8 : ¬(i - 8 < 8) := by omega
      simp [hle, hc, hi8, h8]

theorem or_shift_inj {h1 l1 h2 l2 : Nat} (hl1 : l1 < 256) (hl2 : l2 < 256)
    (h : h1 <<< 8 ||| l1 = h2 <<< 8 ||| l2) : h1 = h2 ∧ l1 = l2 := by
  constructor
  · apply Nat.eq_of_testBit_eq
    intro i
    have hb := congrArg (fun z => Nat.testBit z (8 + i)) h
    have e1 : l1.testBit (8 + i) = false := testBit_ge8_false hl1 (by omega)
    have e2 : l2.testBit (8 + i) = false := testBit_ge8_false hl2 (by omega)
    simpa [Nat.testBit_or, Nat.testBit_shiftLeft, e1, e2] using hb
  · apply Nat.eq_of_testBit_eq
    intro i
    by_cases h8 : i < 8
    · have hb := congrArg (fun z => Nat.testBit z i) h
      simpa [Nat.testBit_or, Nat.testBit_shiftLeft, Nat.not_le.mpr h8] using hb
    · have e1 : l1.testBit i = false := testBit_ge8_false hl1 (by omega)
      have e2 : l2.testBit i = false := testBit_ge8_false hl2 (by omega)
      rw [e1, e2]

theorem xor_ne_self {x e : Nat} (he : e ≠ 0) : x ^^^ e ≠ x := by
  intro h
  have h2 := congrArg (fun z => x ^^^ z) h
  simp only at h2
  rw [Nat.xor_cancel_left, Nat.xor_self] at h2
  exact he h2

theorem calculate_crc_set (payload : List Nat) (i : Nat) (h : i < payload.length)
    (e : Nat) :
    calculate_crc (payload.set i (payload.getD i 0 ^^^ e)) =
      calculate_crc payload ^^^ crc_round^[8 * (payload.length - i)] e := by
  unfold calculate_crc
  exact foldl_update_set payload i h e 0xFFFF

theorem append_crc_length (payload : List Nat) :
    (append_crc payload).length = payload.length + 2 := by
  simp [append_crc]

theorem append_crc_getD_lo (payload : List Nat) :
    (append_crc payload).getD payload.length 0 = calculate_crc payload &&& 0xFF := by
  unfold append_crc
  rw [List.getD_append_right _ _ _ _ (le_refl _), Nat.sub_self, List.getD_cons_zero]

theorem append_crc_getD_hi (payload : List Nat) :
    (append_crc payload).getD (payload.length + 1) 0 =
      (calculate_crc payload >>> 8) &&& 0xFF := by
  unfold append_crc
  rw [List.getD_append_right _ _ _ _ (by omega)]
  have h1 : payload.length + 1 - payload.length = 1 := by omega
  rw [h1, List.getD_cons_succ, List.getD_cons_zero]

theorem xor_lt_256 {x y : Nat} (hx : x < 256) (hy : y < 256) : x ^^^ y < 256 := by
  have h8 : (256 : Nat) = 2 ^ 8 := by norm_num
  rw [h8] at hx hy ⊢
  exact Nat.xor_lt_two_pow hx hy

theorem verify_crc_append_two (l : List Nat) (x y : Nat) :
    verify_crc (l ++ [x, y]) = (calculate_crc l == (y <<< 8 ||| x)) := by
  unfold verify_crc
  have hlen : (l ++ [x, y]).length = l.length + 2 := by simp
  rw [hlen, if_neg (by omega)]
  have ht : l.length + 2 - 2 = l.length := by omega
  have ht1 : l.length + 2 - 1 = l.length + 1 := by omega
  rw [ht, ht1, List.take_left]
  rw [List.getD_append_right _ _ _ _ (by omega : l.length ≤ l.length + 1)]
  rw [List.getD_append_right _ _ _ _ (le_refl l.length)]
  have h1 : l.length + 1 - l.length = 1 := by omega
  rw [h1, Nat.sub_self, List.getD_cons_succ, List.getD_cons_zero,
    List.getD_cons_zero]

theorem verify_append (payload : List Nat) (hb : ∀ b ∈ payload, b < 256) :
    verify_crc (append_crc payload) = true := by
  have hc : calculate_crc payload < 65536 :=
    calculate_crc_lt payload (fun b h => lt_trans (hb b h) (by norm_num))
  unfold append_crc
  rw [verify_crc_append_two, lo_hi_reassemble hc]
  exact beq_self_eq_true _

theorem verify_flip (payload : List Nat) (hb : ∀ b ∈ payload, b < 256)
    (i j : Nat) (hilt : i < payload.length + 2) (hj : j < 8) :
    verify_crc (flip_bit (append_crc payload) i j) = false := by
  have hc : calculate_crc payload < 65536 :=
    calculate_crc_lt payload (fun b h => lt_trans (hb b h) (by norm_num))
  have he : (1 <<< j : Nat) = 2 ^ j := by rw [Nat.shiftLeft_eq, one_mul]
  have he0 : (1 <<< j : Nat) ≠ 0 := by rw [he]; positivity
  have helt : (1 <<< j : Nat) < 256 := by
    rw [he]
    calc 2 ^ j < 2 ^ 8 := Nat.pow_lt_pow_right (by norm_num) hj
    _ = 256 := by norm_num
  have hlo : calculate_crc payload &&& 0xFF < 256 :=
    lt_of_le_of_lt Nat.and_le_right (by norm_num)
  have hhi : (calculate_crc payload >>> 8) &&& 0xFF < 256 :=
    lt_of_le_of_lt Nat.and_le_right (by norm_num)
  by_cases hiL : i < payload.length
  · -- flip inside the payload: the computed CRC changes while the
    -- received CRC bytes do not
    have hgetD : (append_crc payload).getD i 0 = payload.getD i 0 := by
      unfold append_crc
      exact List.getD_append _ _ _ _ hiL
    have hframe : flip_bit (append_crc payload) i j =
        payload.set i (payload.getD i 0 ^^^ (1 <<< j)) ++
          [calculate_crc payload &&& 0xFF,
           (calculate_crc payload >>> 8) &&& 0xFF] := by
      unfold flip_bit
      rw [hgetD]
      unfold append_crc
      rw [List.set_append, if_pos hiL]
    rw [hframe, verify_crc_append_two, calculate_crc_set payload i hiL,
      lo_hi_reassemble hc]
    apply beq_eq_false_iff_ne.mpr
    exact xor_ne_self
      (crc_rounds_ne_zero _ (lt_trans helt (by norm_num)) he0).1
  · have hcase : i = payload.length ∨ i = payload.length + 1 := by omega
    rcases hcase with hcase | hcase
    · -- flip of the low CRC byte: the received CRC changes while the
      -- computed one does not
      subst hcase
      have hframe : flip_bit (append_crc payload) payload.length j =
          payload ++ [(calculate_crc payload &&& 0xFF) ^^^ (1 <<< j),
            (calculate_crc payload >>> 8) &&& 0xFF] := by
        unfold flip_bit
        rw [append_crc_getD_lo]
        unfold append_crc
        rw [List.set_append, if_neg (lt_irrefl _), Nat.sub_self,
          List.set_cons_zero]
      rw [hframe, verify_crc_append_two]
      apply beq_eq_false_iff_ne.mpr
      intro hEq
      have h1 : ((calculate_crc payload >>> 8) &&& 0xFF) <<< 8 |||
          (calculate_crc payload &&& 0xFF) =
          ((calculate_crc payload >>> 8) &&& 0xFF) <<< 8 |||
          ((calculate_crc payload &&& 0xFF) ^^^ (1 <<< j)) :=
        (lo_hi_reassemble hc).trans hEq
      have h2 := (or_shift_inj hlo (xor_lt_256 hlo helt) h1).2
      exact xor_ne_self he0 h2.symm
    · -- flip of the high CRC byte
      subst hcase
      have hframe : flip_bit (append_crc payload) (payload.length + 1) j =
          payload ++ [calculate_crc payload &&& 0xFF,
            ((calculate_crc payload >>> 8) &&& 0xFF) ^^^ (1 <<< j)] := by
        unfold flip_bit
        rw [append_crc_getD_hi]
        unfold append_crc
        rw [List.set_append, if_neg (by omega)]
        have h1 : payload.length + 1 - payload.length = 1 := by omega
        rw [h1, List.set_cons_succ, List.set_cons_zero]
      rw [hframe, verify_crc_append_two]
      apply beq_eq_false_iff_ne.mpr
      intro hEq
      have h1 : ((calculate_crc payload >>> 8) &&& 0xFF) <<< 8 |||
          (calculate_crc payload &&& 0xFF) =
          (((calculate_crc payload >>> 8) &&& 0xFF) ^^^ (1 <<< j)) <<< 8 |||
          (calculate_crc payload &&& 0xFF) :=
        (lo_hi_reassemble hc).trans hEq
      have h2 := (or_shift_inj hlo hlo h1).1
      exact xor_ne_self he0 h2.symm

/-! ## Decode loop -/

theorem decode_registers_length :
    ∀ l : List Nat, (decode_registers l).length = l.length / 2
  | [] => by simp [decode_registers]
  | [a] => by simp [decode_registers]
  | a :: b :: rest => by
    simp only [decode_registers, List.length_cons,
      decode_registers_length rest]
    omega

theorem decode_registers_getD :
    ∀ (l : List Nat) (i : Nat), 2 * i + 1 < l.length →
      (decode_registers l).getD i 0 =
        (l.getD (2 * i) 0) <<< 8 ||| l.getD (2 * i + 1) 0
  | [], i, h => by simp at h
  | [a], i, h => by
    simp only [List.length_cons, List.length_nil] at h
    omega
  | a :: b :: rest, 0, _ => by simp [decode_registers]
  | a :: b :: rest, i + 1, h => by
    have hh : 2 * i + 1 < rest.length := by
      simp only [List.length_cons] at h
      omega
    have h2 : 2 * (i + 1) = 2 * i + 1 + 1 := by ring
    simp only [decode_registers, List.getD_cons_succ, h2]
    exact decode_registers_getD rest i hh

/-! ## Timing of the RTU read loop -/

theorem read_with_timeout_budget (fuel : Nat) :
    ∀ (sched : Nat → Nat) (timeout start pos want t : Nat), start ≤ t →
      t ≤ start + timeout + 10 →
      (∀ p2 t2,
        read_with_timeout sched timeout start pos want t fuel = .ok p2 t2 →
          t2 ≤ start + timeout + 10) ∧
      (∀ t2,
        read_with_timeout sched timeout start pos want t fuel = .timedOut t2 →
          timeout < t2 - start ∧ t2 ≤ start + timeout + 10) := by
  induction fuel with
  | zero =>
    intro sched timeout start pos want t h1 h2
    constructor
    · intro p2 t2 h
      unfold read_with_timeout at h
      split at h
      · cases h; omega
      · cases h
    · intro t2 h
      unfold read_with_timeout at h
      split at h <;> cases h
  | succ fuel ih =>
    intro sched timeout start pos want t h1 h2
    constructor
    · intro p2 t2 h
      unfold read_with_timeout at h
      split at h
      · cases h; omega
      · split at h
        · exact (ih sched timeout start _ _ t h1 h2).1 p2 t2 h
        · split at h
          · cases h
          · rename_i hng
            exact (ih sched timeout start pos want (t + 10) (by omega)
              (by omega)).1 p2 t2 h
    · intro t2 h
      unfold read_with_timeout at h
      split at h
      · cases h
      · split at h
        · exact (ih sched timeout start _ _ t h1 h2).2 t2 h
        · split at h
          · rename_i hexp
            cases h
            exact ⟨hexp, by omega⟩
          · rename_i hng
            exact (ih sched timeout start pos want (t + 10) (by omega)
              (by omega)).2 t2 h

/-! ## Control path -/

theorem control_async_supported (send_ok : List Nat → Bool)
    (request : ModbusRequest) (status : CommunicationStatus) :
    ∀ f, build_request_frame request = .ok f →
      control_async send_ok request status =
        .ok (if send_ok f then
              { status with total_controls := status.total_controls + 1 }
             else
              { status with total_controls := status.total_controls + 1,
                            failed_controls := status.failed_controls + 1 }) := by
  intro f hf
  unfold control_async
  rw [hf]
  by_cases hs : send_ok f
  · simp [hs]
  · simp [hs]

theorem build_request_frame_supported (request : ModbusRequest)
    (hfc : request.function_code = 3 ∨ request.function_code = 4 ∨
      request.function_code = 6 ∨ request.function_code = 16) :
    (build_request_frame request).isOk = true := by
  unfold build_request_frame
  rcases hfc with h | h | h | h <;> rw [h] <;> rfl

theorem control_async_never_raises (send_ok : List Nat → Bool)
    (request : ModbusRequest) (status : CommunicationStatus)
    (hok : (build_request_frame request).isOk = true) :
    (control_async send_ok request status).isOk = true := by
  cases hb : build_request_frame request with
  | error e => rw [hb] at hok; cases hok
  | ok f =>
    rw [control_async_supported send_ok request status f hb]
    rfl

theorem control_async_counts (send_ok : List Nat → Bool)
    (request : ModbusRequest) (status : CommunicationStatus)
    (hok : (build_request_frame request).isOk = true) :
    ∀ st2, control_async send_ok request status = .ok st2 →
      st2.total_controls = status.total_controls + 1 ∧
      st2.total_queries = status.total_queries ∧
      st2.failed_queries = status.failed_queries ∧
      (st2.failed_controls = status.failed_controls ∨
        st2.failed_controls = status.failed_controls + 1) := by
  intro st2 h
  cases hb : build_request_frame request with
  | error e => rw [hb] at hok; cases hok
  | ok f =>
    rw [control_async_supported send_ok request status f hb] at h
    by_cases hs : send_ok f
    · rw [if_pos hs] at h
      cases h
      exact ⟨rfl, rfl, rfl, Or.inl rfl⟩
    · rw [if_neg hs] at h
      cases h
      exact ⟨rfl, rfl, rfl, Or.inr rfl⟩

theorem control_batch_all_ok (send_ok : List Nat → Bool) :
    ∀ (requests : List ModbusRequest) (status : CommunicationStatus),
      (∀ r ∈ requests, (build_request_frame r).isOk = true) →
      ∃ st2, control_batch send_ok requests status = .ok st2 ∧
        st2.total_controls = status.total_controls + requests.length
  | [], status, _ => ⟨status, rfl, by simp⟩
  | r :: rs, status, hall => by
    have hr : (build_request_frame r).isOk = true :=
      hall r (List.mem_cons_self r rs)
    cases hb : build_request_frame r with
    | error e => rw [hb] at hr; cases hr
    | ok f =>
      have hca := control_async_supported send_ok r status f hb
      have hrs : ∀ q ∈ rs, (build_request_frame q).isOk = true :=
        fun q hq => hall q (List.mem_cons_of_mem r hq)
      by_cases hs : send_ok f
      · rw [if_pos hs] at hca
        obtain ⟨st2, h1, h2⟩ := control_batch_all_ok send_ok rs
          { status with total_controls := status.total_controls + 1 } hrs
        refine ⟨st2, ?_, ?_⟩
        · unfold control_batch
          rw [hca]
          exact h1
        · rw [h2]
          simp only [List.length_cons]
          omega
      · rw [if_neg hs] at hca
        obtain ⟨st2, h1, h2⟩ := control_batch_all_ok send_ok rs
          { status with total_controls := status.total_controls + 1,
                        failed_controls := status.failed_controls + 1 } hrs
        refine ⟨st2, ?_, ?_⟩
        · unfold control_batch
          rw [hca]
          exact h1
        · rw [h2]
          simp only [List.length_cons]
          omega

/-! ## Claim theorems -/

/-- C1: the claim says a frame whose CRC16 over every byte preceding the
two trailing CRC bytes mismatches those bytes is never turned into a
Response, in particular for exception frames on the RTU path, with the
check covering the slave-address and function-code bytes. The RTU
receive path violates this: on an exception frame it reads only 3 bytes
and returns a Response without any CRC check, here for the byte sequence
01 83 02 FF FF whose full-frame CRC check fails. -/
theorem c1_rtu_accepts_bad_crc_exception_frame :
    receive_response 0 (sched_all 5) [1, 131, 2, 255, 255] 100 0 8 =
      .ok ({ slave_address := 1, function_code := 131, data := [],
             error := 2 }, 0) ∧
    verify_crc [1, 131, 2, 255, 255] = false :=
  ⟨rfl, by decide⟩

/-- C2: appending the CRC16/Modbus of any payload (low byte first, as
`build_request_frame` does) yields a frame `verify_crc` accepts, and
flipping any single bit of that frame makes `verify_crc` reject it. -/
theorem c2_append_crc_verify_roundtrip_and_bit_flip (payload : List Nat)
    (hb : ∀ b ∈ payload, b < 256) :
    verify_crc (append_crc payload) = true ∧
    ∀ i j, i < (append_crc payload).length → j < 8 →
      verify_crc (flip_bit (append_crc payload) i j) = false := by
  refine ⟨verify_append payload hb, ?_⟩
  intro i j hi hj
  rw [append_crc_length] at hi
  exact verify_flip payload hb i j hi hj

/-- C2 witness: the property instantiated at the concrete payload
[1, 3] and the flip of bit 0 of byte 2. -/
theorem c2_append_crc_witness :
    verify_crc (append_crc [1, 3]) = true ∧
    verify_crc (flip_bit (append_crc [1, 3]) 2 0) = false :=
  ⟨(c2_append_crc_verify_roundtrip_and_bit_flip [1, 3] (by decide)).1,
   (c2_append_crc_verify_roundtrip_and_bit_flip [1, 3] (by decide)).2
     2 0 (by decide) (by decide)⟩

/-- C3: the claim says the data field of an accepted read response is
exactly the N bytes following the byte-count field on both transports.
The UDP delivery callback violates it: for the valid frame
01 03 02 00 05 78 47 (byte count N = 2) it stages data [02, 00, 05],
which starts at the byte-count byte and has length N + 1 = 3 instead of
the claimed [00, 05] of length 2. -/
theorem c3_udp_read_data_includes_byte_count_byte :
    handleResponse 0 [1, 3, 2, 0, 5, 120, 71] =
      some { slave_address := 1, function_code := 3, data := [2, 0, 5],
             error := 0 } ∧
    ([2, 0, 5] : List Nat).length ≠ 2 ∧ ([2, 0, 5] : List Nat) ≠ [0, 5] :=
  ⟨rfl, by decide, by decide⟩

/-- C4: the claim says the error field equals NO_ERROR whenever the
received frame is not an exception frame. The code never assigns the
default-initialised (hence indeterminate) `error` member on
non-exception paths: with initial garbage value 1, the RTU path turns
the valid write response 01 06 00 01 00 03 11 E5 into a Response whose
error field is 1 ≠ NO_ERROR although the function code 0x06 has the
exception bit clear. -/
theorem c4_error_field_indeterminate_on_success :
    receive_response 1 (sched_all 8) [1, 6, 0, 1, 0, 3, 17, 229] 100 0 8 =
      .ok ({ slave_address := 1, function_code := 6, data := [],
             error := 1 }, 0) ∧
    (6 : Nat) &&& 0x80 = 0 ∧ (1 : Nat) ≠ 0 :=
  ⟨rfl, by decide, by decide⟩

/-- C5 counterexample: the claim says the expected-frame-length helper
returns 5 for a header with the exception bit set and 5 + byte_count for
function code 0x04; `get_actual_message_length` actually returns 0 in
both cases (its switch only knows 0x03, 0x06 and 0x10). -/
theorem c5_counterexample_exception_and_read_input :
    (get_actual_message_length [1, 131, 2] = 0 ∧
      get_actual_message_length [1, 131, 2] ≠ 5) ∧
    (get_actual_message_length [1, 4, 2, 0, 0] = 0 ∧
      get_actual_message_length [1, 4, 2, 0, 0] ≠ 5 + 2) :=
  ⟨⟨by decide, by decide⟩, ⟨by decide, by decide⟩⟩

/-- C5 (amended): for every header, `get_actual_message_length` returns
5 + byte_count only for function code 0x03, returns 8 for the write
codes 0x06 and 0x10, and returns 0 for every other function-code byte,
including exception frames (bit 0x80 set) and read-input-registers
(0x04). -/
theorem c5_expected_length_characterisation (s fc bc : Nat)
    (tail : List Nat) :
    get_actual_message_length (s :: 3 :: bc :: tail) = 5 + bc ∧
    get_actual_message_length (s :: 6 :: bc :: tail) = 8 ∧
    get_actual_message_length (s :: 16 :: bc :: tail) = 8 ∧
    (fc ≠ 3 → fc ≠ 6 → fc ≠ 16 →
      get_actual_message_length (s :: fc :: bc :: tail) = 0) := by
  refine ⟨?_, ?_, ?_, ?_⟩
  · unfold get_actual_message_length
    simp only [List.getD_cons_succ, List.getD_cons_zero]
    rw [if_pos trivial]
    omega
  · unfold get_actual_message_length
    simp only [List.getD_cons_succ, List.getD_cons_zero]
    rw [if_neg (by decide), if_pos (by decide)]
  · unfold get_actual_message_length
    simp only [List.getD_cons_succ, List.getD_cons_zero]
    rw [if_neg (by decide), if_pos (by decide)]
  · intro h3 h6 h16
    unfold get_actual_message_length
    simp only [List.getD_cons_succ, List.getD_cons_zero]
    rw [if_neg h3, if_neg (by simp [h6, h16])]

/-- C5 witness: a read-holding-registers header with byte count 2 gives
5 + 2, and an exception header 0x83 gives 0. -/
theorem c5_expected_length_witness :
    get_actual_message_length [1, 3, 2] = 5 + 2 ∧
    get_actual_message_length [1, 131, 2] = 0 :=
  ⟨(c5_expected_length_characterisation 1 131 2 []).1,
   (c5_expected_length_characterisation 1 131 2 []).2.2.2
     (by decide) (by decide) (by decide)⟩

/-- C6: `read_holding_registers` on a transport response with error
NO_ERROR fails with the invalid-response-size error whenever
`data.length ≠ 2 * register_count`, and otherwise returns exactly
`register_count` values, value i being the big-endian u16 formed from
data bytes 2i and 2i+1, in ascending register order. -/
theorem c6_read_holding_registers_size_and_decode (register_count : Nat)
    (response : ModbusResponse) (_hn1 : 1 ≤ register_count)
    (_hn2 : register_count ≤ 125) (herr : response.error = 0) :
    (response.data.length ≠ register_count * 2 →
      read_holding_registers register_count response =
        .error "Invalid response data size") ∧
    (response.data.length = register_count * 2 →
      read_holding_registers register_count response =
        .ok (decode_registers response.data) ∧
      (decode_registers response.data).length = register_count ∧
      ∀ i, i < register_count →
        (decode_registers response.data).getD i 0 =
          (response.data.getD (2 * i) 0) <<< 8 |||
            response.data.getD (2 * i + 1) 0) := by
  constructor
  · intro hne
    unfold read_holding_registers
    rw [if_neg (by simp [herr]), if_pos hne]
  · intro heqd
    unfold read_holding_registers
    rw [if_neg (by simp [herr]), if_neg (by simp [heqd])]
    refine ⟨rfl, ?_, ?_⟩
    · rw [decode_registers_length, heqd]
      omega
    · intro i hi
      exact decode_registers_getD _ i (by rw [heqd]; omega)

/-- C6 witness: a one-register response with data [0, 5] decodes to the
single value 5. -/
theorem c6_read_holding_registers_witness :
    read_holding_registers 1 ⟨1, 3, [0, 5], 0⟩ =
      .ok (decode_registers [0, 5]) ∧
    (decode_registers [0, 5]).length = 1 ∧
    decode_registers [0, 5] = [5] := by
  have h := (c6_read_holding_registers_size_and_decode 1 ⟨1, 3, [0, 5], 0⟩
    (by decide) (by decide) (by decide)).2 (by decide)
  exact ⟨h.1, h.2.1, by decide⟩

/-- C7 counterexample: the claim says the MasterContract operation
`write_multiple_registers` fails with InvalidArgument on an empty values
array before any I/O; `SsModbusMaster::write_multiple_registers`
actually performs no validation and hands the request straight to
`send_request` even for an empty array. -/
theorem c7_counterexample_master_accepts_empty :
    master_write_multiple_registers 1 0 [] =
      .ok { slave_address := 1, function_code := 16, start_address := 0,
            register_count := 0, values := [] } := rfl

/-- C7 (amended): the 1..123 bounds check lives in the device-adapter
layer, not the MasterContract operation: `write_multiple_registers`
on `SsDeviceAdapter` fails with invalid-argument before building
any request when values is empty or longer than 123, and otherwise
builds the request; the `SsModbusMaster` operation always builds and
sends the request without validation. -/
theorem c7_wmr_validation_in_adapter_only (slave_address start_address : Nat)
    (values : List Nat) :
    (values = [] ∨ 123 < values.length →
      adapter_write_multiple_registers slave_address start_address values =
        .error "Values count must be 1-123") ∧
    (values ≠ [] → values.length ≤ 123 →
      adapter_write_multiple_registers slave_address start_address values =
        .ok { slave_address := slave_address, function_code := 16,
              start_address := start_address,
              register_count := values.length, values := values }) ∧
    master_write_multiple_registers slave_address start_address values =
      .ok { slave_address := slave_address, function_code := 16,
            start_address := start_address,
            register_count := values.length, values := values } := by
  refine ⟨?_, ?_, rfl⟩
  · intro h
    unfold adapter_write_multiple_registers
    rw [if_pos]
    rcases h with h | h
    · exact Or.inl (List.isEmpty_iff.mpr h)
    · exact Or.inr h
  · intro h1 h2
    unfold adapter_write_multiple_registers
    have hcond : ¬(values.isEmpty = true ∨ 123 < values.length) := by
      simp only [List.isEmpty_iff]
      push_neg
      exact ⟨h1, by omega⟩
    rw [if_neg hcond]

/-- C7 witness: the adapter rejects an empty values array. -/
theorem c7_wmr_witness :
    adapter_write_multiple_registers 1 0 [] =
      .error "Values count must be 1-123" :=
  (c7_wmr_validation_in_adapter_only 1 0 []).1 (Or.inl rfl)

/-- C8 counterexample: the claim says the timeout deadline is fixed once
at call entry and bounds the whole receive phase. With timeout 100 ms
and the slow schedule (header at 105 ms, rest at 215 ms) the RTU receive
completes successfully at 220 ms, more than twice the 100 ms budget,
because each read phase re-measures its own deadline. -/
theorem c8_counterexample_receive_exceeds_single_budget :
    receive_response 0 sched_slow [1, 6, 0, 1, 0, 3, 17, 229] 100 0 40 =
      .ok ({ slave_address := 1, function_code := 6, data := [],
             error := 0 }, 220) ∧
    100 < 220 :=
  ⟨rfl, by decide⟩

/-- C8 (amended): each call of `read_with_timeout` fixes its deadline at
its own entry time: entered at time t with budget `timeout`, it returns
(success or failure) no later than t + timeout + 10, and it reports a
timeout only when more than `timeout` ms elapsed within this call — so
each receive phase gets a fresh budget rather than sharing a single
deadline fixed at `send_request` entry. -/
theorem c8_per_phase_budget (sched : Nat → Nat)
    (timeout pos want t fuel : Nat) :
    (∀ p2 t2, read_with_timeout sched timeout t pos want t fuel = .ok p2 t2 →
        t2 ≤ t + timeout + 10) ∧
    (∀ t2,
      read_with_timeout sched timeout t pos want t fuel = .timedOut t2 →
        timeout < t2 - t ∧ t2 ≤ t + timeout + 10) :=
  read_with_timeout_budget fuel sched timeout t pos want t (le_refl t)
    (by omega)

/-- C8 witness: a port that never delivers a byte times out at 10 ms
with budget 5 ms, within the per-phase bound. -/
theorem c8_per_phase_budget_witness : 5 < 10 - 0 ∧ 10 ≤ 0 + 5 + 10 :=
  (c8_per_phase_budget sched_none 5 0 1 0 3).2 10 (by decide)

/-- C9 counterexample: the claim says `control_async` never raises to
the caller, including for function codes the codec does not implement.
For a read-coils request (code 0x01) `build_request_frame` throws
"Unsupported function code" and `control_async` propagates it; inside
`control_batch` the same exception aborts the loop before later
requests are attempted. -/
theorem c9_counterexample_unsupported_code_raises :
    control_async send_always_ok
      { slave_address := 1, function_code := 1, start_address := 0,
        register_count := 1, values := [] } ⟨0, 0, 0, 0⟩ =
      .error "Unsupported function code" ∧
    control_batch send_always_ok
      [{ slave_address := 1, function_code := 1, start_address := 0,
         register_count := 1, values := [] },
       { slave_address := 1, function_code := 6, start_address := 0,
         register_count := 1, values := [7] }] ⟨0, 0, 0, 0⟩ =
      .error "Unsupported function code" :=
  ⟨rfl, rfl⟩

/-- C9 (amended): for requests whose function codes the codec
implements (0x03, 0x04, 0x06, 0x10), `control_async` never raises — a
send failure only increments `failed_controls`, leaving the query
counters untouched — and `control_batch` over such requests attempts
every request in order, counting each one. -/
theorem c9_supported_controls_never_raise (send_ok : List Nat → Bool)
    (request : ModbusRequest) (requests : List ModbusRequest)
    (status : CommunicationStatus)
    (hfc : request.function_code = 3 ∨ request.function_code = 4 ∨
      request.function_code = 6 ∨ request.function_code = 16)
    (hall : ∀ r ∈ requests, r.function_code = 3 ∨ r.function_code = 4 ∨
      r.function_code = 6 ∨ r.function_code = 16) :
    (control_async send_ok request status).isOk = true ∧
    (∀ st2, control_async send_ok request status = .ok st2 →
      st2.total_controls = status.total_controls + 1 ∧
      st2.total_queries = status.total_queries ∧
      st2.failed_queries = status.failed_queries ∧
      (st2.failed_controls = status.failed_controls ∨
        st2.failed_controls = status.failed_controls + 1)) ∧
    (control_batch send_ok requests status).isOk = true ∧
    (∀ st2, control_batch send_ok requests status = .ok st2 →
      st2.total_controls = status.total_controls + requests.length) := by
  have hok := build_request_frame_supported request hfc
  have hallok : ∀ r ∈ requests, (build_request_frame r).isOk = true :=
    fun r hr => build_request_frame_supported r (hall r hr)
  obtain ⟨st2, hb1, hb2⟩ := control_batch_all_ok send_ok requests status hallok
  refine ⟨control_async_never_raises send_ok request status hok,
    control_async_counts send_ok request status hok, ?_, ?_⟩
  · rw [hb1]
    rfl
  · intro st3 h3
    rw [hb1] at h3
    cases h3
    exact hb2

/-- C9 witness: a supported write control succeeds and is counted, and a
singleton batch attempts its one request. -/
theorem c9_supported_controls_witness :
    (control_async send_always_ok
      { slave_address := 1, function_code := 6, start_address := 1,
        register_count := 1, values := [3] } ⟨0, 0, 0, 0⟩).isOk = true ∧
    (control_batch send_always_ok
      [{ slave_address := 1, function_code := 6, start_address := 1,
         register_count := 1, values := [3] }] ⟨0, 0, 0, 0⟩).isOk = true := by
  have h := c9_supported_controls_never_raise send_always_ok
    { slave_address := 1, function_code := 6, start_address := 1,
      register_count := 1, values := [3] }
    [{ slave_address := 1, function_code := 6, start_address := 1,
       register_count := 1, values := [3] }] ⟨0, 0, 0, 0⟩
    (by decide) (by decide)
  exact ⟨h.1, h.2.2.1⟩

/-- C10: the delivery callback stages responses in a bounded FIFO queue
of capacity 10: staging preserves the at-most-10 invariant, and when 10
responses are already staged the oldest one is silently dropped to make
room, so an accepted response can be discarded without ever being
returned to a caller. -/
theorem c10_stage_response_bounded_fifo (queue : List ModbusResponse)
    (response : ModbusResponse) (h : queue.length ≤ 10) :
    (stage_response queue response).length ≤ 10 ∧
    (queue.length = 10 →
      stage_response queue response = queue.tail ++ [response]) ∧
    (queue.length < 10 →
      stage_response queue response = queue ++ [response]) := by
  unfold stage_response
  by_cases h10 : 10 ≤ queue.length
  · rw [if_pos h10]
    refine ⟨?_, fun _ => rfl, fun hlt => absurd h10 (by omega)⟩
    simp only [List.length_append, List.length_tail, List.length_cons,
      List.length_nil]
    omega
  · rw [if_neg h10]
    refine ⟨?_, fun heq => absurd heq (by omega), fun _ => rfl⟩
    simp only [List.length_append, List.length_cons, List.length_nil]
    omega

/-- C10 witness: staging into a full queue of 10 drops the oldest
entry and stays at 10. -/
theorem c10_stage_response_witness :
    (stage_response (List.replicate 10 ⟨0, 0, [], 0⟩) ⟨1, 3, [], 0⟩).length
      ≤ 10 ∧
    stage_response (List.replicate 10 ⟨0, 0, [], 0⟩) ⟨1, 3, [], 0⟩ =
      (List.replicate 10 (⟨0, 0, [], 0⟩ : ModbusResponse)).tail ++
        [⟨1, 3, [], 0⟩] := by
  have h := c10_stage_response_bounded_fifo
    (List.replicate 10 ⟨0, 0, [], 0⟩) ⟨1, 3, [], 0⟩ (by decide)
  exact ⟨h.1, h.2.1 (by decide)⟩

end Modbus
